import Mathlib

/-!
Verification development for the KML/KMZ → ESRI Shapefile converter
(`src/KML-KMZ-2-SHAPE-FILE/kml-kmz-2-shp.py`, class `SimpleKMLToShapefile`).

The Python code is shallowly embedded as executable Lean definitions:

* Python `float` values are modelled exactly by `PyFloat`, a decimal
  fixed-point number `num / 10 ^ den10`.  Every numeric literal appearing in
  the concrete inputs of this development is exactly representable as an IEEE
  double, so Python's parse-and-compare behaviour and the model agree on all
  inputs used here.  Comparison (`==`, `<=`) is by value, as in Python.
* Python strings are modelled as `List Char` (Python indexes and slices
  strings by code point, as `List Char` does).
* The byte streams produced by `struct.pack` are modelled as lists of
  `BinField` values: integer fields carry the packed value and their byte
  width, and each `struct.pack('<d', x)` double is an opaque 8-byte field
  carrying its exact value.  The `.dbf` writer packs only integer/byte
  fields, so it is modelled directly as a byte list.
* The XML tree walk of `parse_kml` (lines 77-117) is abstracted: an input
  document is modelled as the ordered list of its placemark-like nodes,
  each carrying the text found by the three descendant searches (first
  `name`-tagged child with non-empty text, first `description`-tagged child
  with non-empty text, and the text of a polygon-classified `coordinates`
  child, when present).  The per-placemark logic of lines 119-128 and
  everything downstream is translated line by line.
-/

set_option maxRecDepth 8192

namespace KmlToShp

/-- Exact model of a Python `float`: the rational `num / 10 ^ den10`.
Equality and order are by value (cross-multiplied), as for IEEE doubles. -/
structure PyFloat where
  num : Int
  den10 : Nat
deriving DecidableEq

/-- Value equality of two `PyFloat`s, Python's `==` on floats. -/
def PyFloat.beq (a b : PyFloat) : Bool :=
  decide (a.num * (10 : Int) ^ b.den10 = b.num * (10 : Int) ^ a.den10)

/-- Value order on `PyFloat`, Python's `<=` on floats. -/
def PyFloat.leb (a b : PyFloat) : Bool :=
  decide (a.num * (10 : Int) ^ b.den10 ≤ b.num * (10 : Int) ^ a.den10)

/-- Value strict order on `PyFloat`, Python's `<` on floats. -/
def PyFloat.ltb (a b : PyFloat) : Bool :=
  decide (a.num * (10 : Int) ^ b.den10 < b.num * (10 : Int) ^ a.den10)

/-- Shorthand for an integral `PyFloat`. -/
def pf (n : Int) : PyFloat := ⟨n, 0⟩

/-- One parsed coordinate `[lon, lat]` (line 62 of the source appends
two-element lists; the pair is `(lon, lat)`). -/
abbrev Vertex := PyFloat × PyFloat

/-- Python's `==` on two-element `[lon, lat]` lists: both entries equal. -/
def vertexEq (v w : Vertex) : Bool := v.1.beq w.1 && v.2.beq w.2

/-- One polygon ring, an entry of `self.shapes`. -/
abbrev Shape := List Vertex

/-- One entry of `self.records` (a Python dict with keys
`'name'` and `'description'`). -/
structure Record where
  name : List Char
  description : List Char
deriving DecidableEq

/-- Python `str.isspace` characters relevant to `str.strip()` / `str.split()`
defaults on ASCII text. -/
def isPySpace (c : Char) : Bool :=
  c = ' ' || c = '\t' || c = '\n' || c = '\r' || c = '\x0b' || c = '\x0c'

/-- Python `str.strip()`: drop leading and trailing whitespace. -/
def pyStrip (l : List Char) : List Char :=
  ((l.dropWhile isPySpace).reverse.dropWhile isPySpace).reverse

/-- Python `str.split(sep)` for a one-character separator: splits on every
occurrence and keeps empty pieces, so the result is always non-empty. -/
def splitOnChar (sep : Char) : List Char → List (List Char)
  | [] => [[]]
  | c :: rest =>
    if c = sep then [] :: splitOnChar sep rest
    else
      match splitOnChar sep rest with
      | g :: gs => (c :: g) :: gs
      | [] => [[c]]

/-- Python `str.replace('\r\n', '\n')`: left-to-right, non-overlapping. -/
def replaceCRLF : List Char → List Char
  | '\r' :: '\n' :: rest => '\n' :: replaceCRLF rest
  | c :: rest => c :: replaceCRLF rest
  | [] => []

/-- Line 39 of the source: `.replace('\r\n', '\n').replace('\r', '\n')`. -/
def lfNormalize (l : List Char) : List Char :=
  (replaceCRLF l).map (fun c => if c = '\r' then '\n' else c)

/-- ASCII digit test. -/
def isDigitCh (c : Char) : Bool := '0' ≤ c && c ≤ '9'

/-- Numeric value of a digit string (most significant digit first). -/
def digitsToNat (ds : List Char) : Nat :=
  ds.foldl (fun a c => a * 10 + (c.toNat - 48)) 0

/-- Scale a mantissa by `10 ^ e` with the sign of the exponent. -/
def applyExp (m : PyFloat) (negExp : Bool) (e : Nat) : PyFloat :=
  if negExp then ⟨m.num, m.den10 + e⟩ else ⟨m.num * (10 : Int) ^ e, m.den10⟩

/-- Trailing exponent digits of a float literal. -/
def parseExpNat (r : List Char) (m : PyFloat) (negExp : Bool) : Option PyFloat :=
  let ds := r.takeWhile isDigitCh
  let rest := r.dropWhile isDigitCh
  if ds = [] ∨ rest ≠ [] then none else some (applyExp m negExp (digitsToNat ds))

/-- Optional sign of the exponent part of a float literal. -/
def parseExpSign (r : List Char) (m : PyFloat) : Option PyFloat :=
  match r with
  | '+' :: r2 => parseExpNat r2 m false
  | '-' :: r2 => parseExpNat r2 m true
  | _ => parseExpNat r m false

/-- Optional `e`/`E` exponent part of a float literal. -/
def parseExpPart (rest : List Char) (m : PyFloat) : Option PyFloat :=
  match rest with
  | [] => some m
  | 'e' :: r => parseExpSign r m
  | 'E' :: r => parseExpSign r m
  | _ => none

/-- Unsigned float literal: `digits [. digits] [exp]` with at least one
mantissa digit. -/
def parseUnsigned (s : List Char) : Option PyFloat :=
  let intDigs := s.takeWhile isDigitCh
  let rest := s.dropWhile isDigitCh
  match rest with
  | '.' :: rest2 =>
    let fracDigs := rest2.takeWhile isDigitCh
    let rest3 := rest2.dropWhile isDigitCh
    if intDigs = [] ∧ fracDigs = [] then none
    else parseExpPart rest3 ⟨(digitsToNat (intDigs ++ fracDigs) : Int), fracDigs.length⟩
  | _ =>
    if intDigs = [] then none else parseExpPart rest ⟨(digitsToNat intDigs : Int), 0⟩

/-- Model of Python `float(s)` on numeric literals: strip, optional sign,
then an unsigned literal.  The special tokens `inf`/`infinity`/`nan` are
modelled as parse failures; in the source they parse but are then rejected
by the `-180 <= lon <= 180` range test (comparisons with `nan` are false),
so `parse_coordinates` drops such tokens either way. -/
def parseFloat (s : List Char) : Option PyFloat :=
  let t := pyStrip s
  match t with
  | '+' :: rest => parseUnsigned rest
  | '-' :: rest => (parseUnsigned rest).map (fun m => ⟨-m.num, m.den10⟩)
  | _ => parseUnsigned t

/-- Lines 49-64 of the source: one whitespace-separated token.  Skip it if
empty or without a comma; split on commas; with at least two fields parse
longitude and latitude and keep the pair only if both parses succeed and
`-180 <= lon <= 180 and -90 <= lat <= 90`. -/
def parseCoordPart (part0 : List Char) : Option Vertex :=
  let part := pyStrip part0
  if part = [] then none
  else if (part.contains ',') = false then none
  else
    let cp := splitOnChar ',' part
    if cp.length < 2 then none
    else
      match parseFloat (cp.getD 0 []), parseFloat (cp.getD 1 []) with
      | some lon, some lat =>
        if ((pf (-180)).leb lon && lon.leb (pf 180) &&
            (pf (-90)).leb lat && lat.leb (pf 90)) = true then
          some (lon, lat)
        else none
      | some _, none => none
      | none, _ => none

/-- Lines 41-47 of the source: one line of coordinate text.  Strip it, skip
it when empty, replace tabs by spaces, split on single spaces and collect
the surviving tokens in order. -/
def parseLine (line0 : List Char) : List Vertex :=
  let line := pyStrip line0
  if line = [] then []
  else (splitOnChar ' ' (line.map (fun c => if c = '\t' then ' ' else c))).filterMap parseCoordPart

/-- Lines 29-66 of the source, `parse_coordinates`: empty text gives no
coordinates; otherwise strip the text, normalize line endings, split into
lines and concatenate the per-line results. -/
def parse_coordinates (coordText : List Char) : List Vertex :=
  if coordText = [] then []
  else (splitOnChar '\n' (lfNormalize (pyStrip coordText))).flatMap parseLine

/-- Abstraction of one placemark-like XML node (tag containing `Placemark`)
together with the outcome of the three descendant searches of lines 83-117:
`nameText`/`descText` are the raw text of the first child whose tag contains
`name` / `description` and whose text is non-empty (`none` when no such
child exists), and `coordText` is the text of the `coordinates` child when
one was found and classified as a polygon (`none` otherwise, which leaves
the `coordinates` variable of line 81 as the empty list). -/
structure Placemark where
  nameText : Option (List Char)
  descText : Option (List Char)
  coordText : Option (List Char)

/-- Line 86 of the source: `name = child.text[:50]`, else the `""` of
line 79. -/
def pmName (p : Placemark) : List Char := (p.nameText.map (List.take 50)).getD []

/-- Line 92 of the source: `description = child.text[:100]`, else `""`. -/
def pmDescription (p : Placemark) : List Char := (p.descText.map (List.take 100)).getD []

/-- Line 116 of the source: `coordinates = self.parse_coordinates(child.text)`
when a polygon-classified `coordinates` child was found, else the `[]` of
line 81. -/
def pmCoords (p : Placemark) : List Vertex := (p.coordText.map parse_coordinates).getD []

/-- Last element of the non-empty list `c :: cs`, Python's `coordinates[-1]`. -/
def lastVertex (c : Vertex) (cs : List Vertex) : Vertex :=
  match cs with
  | [] => c
  | d :: ds => lastVertex d ds

/-- Lines 120-122 of the source: `if coordinates[0] != coordinates[-1]:
coordinates.append(coordinates[0])` (float comparison is by value). -/
def closeRing : Shape → Shape
  | [] => []
  | c :: cs => if vertexEq c (lastVertex c cs) then c :: cs else (c :: cs) ++ [c]

/-- Python truth of `coordinates[0] == coordinates[-1]` for a ring, the
closure property of the spec (`false` for an empty ring). -/
def ringClosed : Shape → Bool
  | [] => false
  | c :: cs => vertexEq c (lastVertex c cs)

/-- Line 126 of the source: the f-string `f'Polygon_{k}'`. -/
def defaultName (k : Nat) : List Char := "Polygon_".data ++ Nat.toDigits 10 k

/-- Lines 119-128 of the source, the body of the placemark loop: when the
parsed coordinate list has at least 3 entries, close it, append it to
`self.shapes` and append the attribute record, whose name defaults to
`f'Polygon_{len(self.shapes) + 1}'` — evaluated after the shape was already
appended — when the found name is empty. -/
def parseKmlStep (acc : List Shape × List Record) (p : Placemark) :
    List Shape × List Record :=
  let coords := pmCoords p
  if 3 ≤ coords.length then
    let ring := closeRing coords
    let shapes := acc.1 ++ [ring]
    let nm := pmName p
    (shapes,
     acc.2 ++ [{ name := if nm = [] then defaultName (shapes.length + 1) else nm,
                 description := pmDescription p }])
  else acc

/-- Lines 68-130 of the source, `parse_kml`: process the placemark-like
nodes in document order, starting from the empty `shapes`/`records` of
`__init__`. -/
def parse_kml (doc : List Placemark) : List Shape × List Record :=
  doc.foldl parseKmlStep ([], [])

/-- One field written by `struct.pack` (or a literal byte string): a
big-endian or little-endian 32-bit integer, a little-endian IEEE double
(modelled as an opaque 8-byte field carrying its exact value), or raw
bytes. -/
inductive BinField where
  | u32be : Nat → BinField
  | u32le : Nat → BinField
  | f64le : PyFloat → BinField
  | raw : List Nat → BinField
deriving DecidableEq

/-- Byte width of one field. -/
def BinField.size : BinField → Nat
  | .u32be _ => 4
  | .u32le _ => 4
  | .f64le _ => 8
  | .raw bs => bs.length

/-- Total byte length of a field stream. -/
def fieldsSize (fs : List BinField) : Nat := (fs.map BinField.size).sum

/-- Python `min` over a non-empty sequence via `foldl` (keeps the earlier
element on ties, as Python does); `0` for the empty sequence, on which the
source would raise `ValueError`. -/
def listMin : List PyFloat → PyFloat
  | [] => pf 0
  | x :: xs => xs.foldl (fun acc y => if y.ltb acc then y else acc) x

/-- Python `max` over a non-empty sequence via `foldl`; `0` for the empty
sequence. -/
def listMax : List PyFloat → PyFloat
  | [] => pf 0
  | x :: xs => xs.foldl (fun acc y => if acc.ltb y then y else acc) x

/-- Line 149 of the source: `[coord for shape in self.shapes for coord in
shape]`. -/
def allCoords (shapes : List Shape) : List Vertex := shapes.flatMap (fun s => s)

/-- Lines 148-155 of the source: the dataset bounding box
`(min_x, min_y, max_x, max_y)`, all zero for an empty dataset. -/
def globalBox (shapes : List Shape) : PyFloat × PyFloat × PyFloat × PyFloat :=
  if shapes = [] then (pf 0, pf 0, pf 0, pf 0)
  else
    (listMin ((allCoords shapes).map Prod.fst),
     listMin ((allCoords shapes).map Prod.snd),
     listMax ((allCoords shapes).map Prod.fst),
     listMax ((allCoords shapes).map Prod.snd))

/-- Lines 139-141 of the source: `file_length = 50` then
`file_length += 4 + 44 + len(shape) * 16` per shape. -/
def shp_file_length (shapes : List Shape) : Nat :=
  shapes.foldl (fun acc shape => acc + (4 + 44 + shape.length * 16)) 50

/-- Lines 136-164 of the source: the 100-byte `.shp` header. -/
def shpHeaderFields (shapes : List Shape) : List BinField :=
  [.u32be 9994, .raw (List.replicate 20 0), .u32be (shp_file_length shapes),
   .u32le 1000, .u32le 5,
   .f64le (globalBox shapes).1, .f64le (globalBox shapes).2.1,
   .f64le (globalBox shapes).2.2.1, .f64le (globalBox shapes).2.2.2,
   .f64le (pf 0), .f64le (pf 0), .f64le (pf 0), .f64le (pf 0)]

/-- Lines 167-193 of the source: record header and content for shape `i`
(0-based `enumerate` index): big-endian record number `i + 1` and declared
content length `(44 + len(shape) * 16) // 2`, then little-endian shape type
5, the per-shape bounding box, part count 1, point count, part start 0 and
the interleaved `(x, y)` doubles. -/
def shpRecordFields (i : Nat) (shape : Shape) : List BinField :=
  [.u32be (i + 1), .u32be ((44 + shape.length * 16) / 2), .u32le 5,
   .f64le (listMin (shape.map Prod.fst)), .f64le (listMin (shape.map Prod.snd)),
   .f64le (listMax (shape.map Prod.fst)), .f64le (listMax (shape.map Prod.snd)),
   .u32le 1, .u32le shape.length, .u32le 0]
  ++ shape.flatMap (fun v => [.f64le v.1, .f64le v.2])

/-- Record section of the `.shp` file, in dataset order. -/
def shpRecordsFields (shapes : List Shape) : List BinField :=
  shapes.enum.flatMap (fun p => shpRecordFields p.1 p.2)

/-- Lines 132-193 of the source, `write_shp`: header followed by the
records. -/
def write_shp (shapes : List Shape) : List BinField :=
  shpHeaderFields shapes ++ shpRecordsFields shapes

/-- Lines 223-229 of the source, the `.shx` index loop: starting from
`offset = 50`, emit `(offset, content_length // 2)` per shape where
`content_length = 44 + len(shape) * 16`, then advance the offset by
`4 + content_length` (a word count plus a byte count). -/
def shxEntriesFrom (offset : Nat) : List Shape → List (Nat × Nat)
  | [] => []
  | shape :: rest =>
    (offset, (44 + shape.length * 16) / 2) ::
      shxEntriesFrom (offset + (4 + (44 + shape.length * 16))) rest

/-- Index entries `(offset, content length)` of `write_shx`, both in
16-bit words according to the format. -/
def shxIndexEntries (shapes : List Shape) : List (Nat × Nat) :=
  shxEntriesFrom 50 shapes

/-- Lines 197-221 of the source: the 100-byte `.shx` header with file
length `50 + 4 * len(shapes)` and the same bounding box as the `.shp`
header. -/
def shxHeaderFields (shapes : List Shape) : List BinField :=
  [.u32be 9994, .raw (List.replicate 20 0), .u32be (50 + shapes.length * 4),
   .u32le 1000, .u32le 5,
   .f64le (globalBox shapes).1, .f64le (globalBox shapes).2.1,
   .f64le (globalBox shapes).2.2.1, .f64le (globalBox shapes).2.2.2,
   .raw (List.replicate 32 0)]

/-- Lines 195-229 of the source, `write_shx`: header followed by one
8-byte entry per shape. -/
def write_shx (shapes : List Shape) : List BinField :=
  shxHeaderFields shapes ++
    (shxIndexEntries shapes).flatMap (fun e => [.u32be e.1, .u32be e.2])

/-- Seek to byte position `n` in a field stream: succeeds with the
remaining fields exactly when `n` falls on a field boundary (a byte reader
positioned elsewhere would read garbage, which the decode below reports as
failure). -/
def dropBytes : List BinField → Nat → Option (List BinField)
  | fs, 0 => some fs
  | [], _ + 1 => none
  | f :: fs, n + 1 =>
    if f.size ≤ n + 1 then dropBytes fs (n + 1 - f.size) else none

/-- Consume the `numParts` part-start indexes of a polygon record. -/
def skipParts : Nat → List BinField → Option (List BinField)
  | 0, fs => some fs
  | n + 1, .u32le _ :: fs => skipParts n fs
  | _ + 1, _ => none

/-- Read `n` interleaved `(x, y)` double pairs. -/
def readPoints : Nat → List BinField → Option (List Vertex)
  | 0, _ => some []
  | n + 1, .f64le x :: .f64le y :: rest => (readPoints n rest).map (fun vs => (x, y) :: vs)
  | _ + 1, _ => none

/-- Consuming reader for one geometry record as laid out by `write_shp`:
record number and content length (big-endian), shape type 5, bounding box,
part count, point count, the part indexes, then the vertices. -/
def readRecord : List BinField → Option (List Vertex)
  | .u32be _ :: .u32be _ :: .u32le 5 :: .f64le _ :: .f64le _ :: .f64le _ :: .f64le _ ::
      .u32le nparts :: .u32le npoints :: rest =>
    (skipParts nparts rest).bind (readPoints npoints)
  | _ => none

/-- Round trip of the spec: locate each record of the emitted `.shp` stream
at the byte position declared by its `.shx` index entry (the entry's offset
is in 16-bit words) and read back its vertex list. -/
def roundTripShp (shapes : List Shape) : Option (List Shape) :=
  (shxIndexEntries shapes).mapM
    (fun e => (dropBytes (write_shp shapes) (2 * e.1)).bind readRecord)

/-- UTF-8 encoding of one scalar value, as `str.encode('utf-8')` produces
(Lean `Char` carries only valid scalar values, so the `errors='ignore'`
branch — reachable in Python only for lone surrogates — never fires). -/
def utf8EncodeChar (c : Char) : List Nat :=
  let n := c.toNat
  if n < 128 then [n]
  else if n < 2048 then [192 + n / 64, 128 + n % 64]
  else if n < 65536 then [224 + n / 4096, 128 + n / 64 % 64, 128 + n % 64]
  else [240 + n / 262144, 128 + n / 4096 % 64, 128 + n / 64 % 64, 128 + n % 64]

/-- UTF-8 encoding of a string. -/
def utf8Encode (l : List Char) : List Nat := l.flatMap utf8EncodeChar

/-- Python `str.ljust(w, ' ')`: pad on the right to `w` characters. -/
def ljustChars (w : Nat) (l : List Char) : List Char :=
  l ++ List.replicate (w - l.length) ' '

/-- Python `bytes.ljust(w, b'\x00')`. -/
def ljustBytes (w : Nat) (l : List Nat) : List Nat :=
  l ++ List.replicate (w - l.length) 0

/-- Little-endian 16-bit packing, `struct.pack('<H', n)`. -/
def u16le (n : Nat) : List Nat := [n % 256, n / 256 % 256]

/-- Little-endian 32-bit packing, `struct.pack('<I', n)`. -/
def u32leBytes (n : Nat) : List Nat :=
  [n % 256, n / 256 % 256, n / 65536 % 256, n / 16777216 % 256]

/-- Lines 260-263 of the source: one `.dbf` data row — the `b' '`
not-deleted flag, then `record['name'][:50].ljust(50, ' ')` and
`record['description'][:100].ljust(100, ' ')`, each UTF-8 encoded after
the character-level truncation and padding. -/
def dbfRow (r : Record) : List Nat :=
  32 :: (utf8Encode (ljustChars 50 (r.name.take 50)) ++
    utf8Encode (ljustChars 100 (r.description.take 100)))

/-- Lines 244-255 of the source: one 32-byte field descriptor — the name
padded to 11 bytes with `\x00`, type byte `C`, 4 reserved bytes, field
length, 0 decimals, 14 reserved bytes. -/
def fieldDescriptorBytes (nm : List Nat) (flen : Nat) : List Nat :=
  ljustBytes 11 nm ++ [67] ++ List.replicate 4 0 ++ [flen, 0] ++ List.replicate 14 0

/-- Lines 231-263 of the source, `write_dbf`: version byte 3, the constant
date stamp `(24, 1, 1)`, the record count, header length 193 and record
length 151 (16-bit fields), 20 reserved bytes, the `NAME` and `DESC` field
descriptors, the `\x0D` header terminator, then the data rows. -/
def write_dbf (records : List Record) : List Nat :=
  [3] ++ [24, 1, 1] ++ u32leBytes records.length ++ u16le 193 ++ u16le 151 ++
    List.replicate 20 0 ++
    fieldDescriptorBytes [78, 65, 77, 69] 50 ++
    fieldDescriptorBytes [68, 69, 83, 67] 100 ++
    [13] ++ records.flatMap dbfRow

/-- Line 267 of the source: the fixed WGS84 descriptor written to `.prj`. -/
def wgs84 : String :=
  "GEOGCS[\"GCS_WGS_1984\",DATUM[\"D_WGS_1984\",SPHEROID[\"WGS_1984\",6378137,298.257223563]],PRIMEM[\"Greenwich\",0],UNIT[\"Degree\",0.017453292519943295]]"

/-- UTF-8 continuation byte test. -/
def isCont (b : Nat) : Bool := 128 ≤ b && b ≤ 191

/-- Valid second byte of a 3- or 4-byte UTF-8 sequence led by `b`
(excludes overlong encodings, surrogates and values above `0x10FFFF`). -/
def utf8SecondOk (b b2 : Nat) : Bool :=
  if b = 224 then 160 ≤ b2 && b2 ≤ 191
  else if b = 237 then 128 ≤ b2 && b2 ≤ 159
  else if b = 240 then 144 ≤ b2 && b2 ≤ 191
  else if b = 244 then 128 ≤ b2 && b2 ≤ 143
  else isCont b2

/-- Decode one UTF-8 scalar from the head of a byte sequence, returning the
character and the remaining bytes; `none` on an invalid prefix. -/
def utf8Step (l : List Nat) : Option (Char × List Nat) :=
  match l with
  | [] => none
  | b :: rest =>
    if b ≤ 127 then some (Char.ofNat b, rest)
    else if 194 ≤ b && b ≤ 223 then
      match rest with
      | b2 :: rest2 =>
        if isCont b2 then some (Char.ofNat ((b - 192) * 64 + (b2 - 128)), rest2)
        else none
      | [] => none
    else if 224 ≤ b && b ≤ 239 then
      match rest with
      | b2 :: b3 :: rest2 =>
        if utf8SecondOk b b2 && isCont b3 then
          some (Char.ofNat ((b - 224) * 4096 + (b2 - 128) * 64 + (b3 - 128)), rest2)
        else none
      | _ => none
    else if 240 ≤ b && b ≤ 244 then
      match rest with
      | b2 :: b3 :: b4 :: rest2 =>
        if utf8SecondOk b b2 && isCont b3 && isCont b4 then
          some (Char.ofNat ((b - 240) * 262144 + (b2 - 128) * 4096 + (b3 - 128) * 64 + (b4 - 128)), rest2)
        else none
      | _ => none
    else none

/-- Decode scalars until the input is exhausted.  The fuel argument only
bounds the recursion; every successful `utf8Step` consumes at least one
byte, so with fuel at least the byte count the `none` fuel case is never
reached. -/
def utf8DecodeLoop : Nat → List Nat → Option (List Char)
  | _, [] => some []
  | 0, _ :: _ => none
  | fuel + 1, b :: rest =>
    match utf8Step (b :: rest) with
    | none => none
    | some (c, rest2) => (utf8DecodeLoop fuel rest2).map (fun cs => c :: cs)

/-- Strict UTF-8 decoding of a byte sequence, the behaviour of Python\'s
`open(path, 'r', encoding='utf-8')` + `read()`: `none` is a
`UnicodeDecodeError` (overlong encodings, surrogates, values above
`0x10FFFF`, truncated sequences and stray continuation bytes all fail). -/
def utf8Decode (l : List Nat) : Option (List Char) := utf8DecodeLoop l.length l

/-- Latin-1 decoding: total on bytes — every byte sequence is decodable. -/
def latin1Decode (bytes : List Nat) : List Char :=
  bytes.map (fun b => Char.ofNat b)

/-- Error message type of the model of `convert`. -/
def decodeErrorMsg : String := "UnicodeDecodeError"

/-- Lines 278-280 of the source, the non-KMZ branch of `convert`:
`open(input_file, 'r', encoding='utf-8')` then `read()`.  The bytes are
decoded as UTF-8 only; there is no retry with any other encoding. -/
def readInputText (bytes : List Nat) : Except String (List Char) :=
  match utf8Decode bytes with
  | some s => .ok s
  | none => .error decodeErrorMsg

/-- Message of the `Exception` raised at line 284 of the source. -/
def noPolygonsMsg : String := "No polygons found in KML file"

/-- Content of the four output files produced by one conversion. -/
structure ShapefileSet where
  shp : List BinField
  shx : List BinField
  dbf : List Nat
  prj : String

/-- Lines 282-298 of the source, `convert` after the input document was
obtained: `parse_kml` is run, and when it reports an empty shape list the
exception of line 284 is raised before any output file is opened or
written; otherwise the four files are produced.  (The `os.makedirs` call of
lines 287-289 also sits after the raise.) -/
def convertDoc (doc : List Placemark) : Except String ShapefileSet :=
  let parsed := parse_kml doc
  if 0 < parsed.1.length then
    .ok { shp := write_shp parsed.1, shx := write_shx parsed.1,
          dbf := write_dbf parsed.2, prj := wgs84 }
  else .error noPolygonsMsg

/-- Sample 4-vertex closed square ring. -/
def sampleRingA : Shape := [(pf 0, pf 0), (pf 1, pf 0), (pf 1, pf 1), (pf 0, pf 0)]

/-- Second sample 4-vertex closed square ring. -/
def sampleRingB : Shape := [(pf 2, pf 2), (pf 3, pf 2), (pf 3, pf 3), (pf 2, pf 2)]

/-- Third sample ring, used by the round-trip evaluation. -/
def sampleRingC : Shape := [(pf 0, pf 0), (pf 2, pf 0), (pf 2, pf 2), (pf 0, pf 0)]

/-- Fourth sample ring, used by the round-trip evaluation. -/
def sampleRingD : Shape := [(pf 5, pf 5), (pf 6, pf 5), (pf 6, pf 6), (pf 5, pf 5)]

/-- Coordinate text of an already-closed 3-vertex ring. -/
def closedTriangleText : List Char := "0,0 1,1 0,0".data

/-- Ring parsed from `closedTriangleText`. -/
def closedTriangleRing : Shape := [(pf 0, pf 0), (pf 1, pf 1), (pf 0, pf 0)]

/-- Placemark holding an already-closed 3-vertex polygon ring and no name. -/
def closedTrianglePm : Placemark :=
  { nameText := none, descText := none, coordText := some closedTriangleText }

/-- Coordinate text of a closed 4-vertex square ring. -/
def squareText : List Char := "0,0 1,0 1,1 0,0".data

/-- Placemark named `First` holding a square ring. -/
def namedPm : Placemark :=
  { nameText := some "First".data, descText := none, coordText := some squareText }

/-- Unnamed placemark holding a square ring. -/
def unnamedPm : Placemark :=
  { nameText := none, descText := none, coordText := some squareText }

/-- Attribute record whose name is a single non-ASCII character. -/
def nonAsciiRecord : Record := { name := "é".data, description := [] }

theorem pyFloat_beq_refl (a : PyFloat) : a.beq a = true := by
  simp [PyFloat.beq]

theorem vertexEq_refl (v : Vertex) : vertexEq v v = true := by
  simp [vertexEq, pyFloat_beq_refl]

theorem lastVertex_concat (c d : Vertex) (t : List Vertex) :
    lastVertex c (t ++ [d]) = d := by
  induction t generalizing c with
  | nil => rfl
  | cons e t ih => exact ih e

theorem closeRing_length (cs : Shape) : cs.length ≤ (closeRing cs).length := by
  cases cs with
  | nil => simp [closeRing]
  | cons c t =>
    simp only [closeRing]
    split
    · exact Nat.le_refl _
    · simp [List.length_append]

theorem closeRing_closed (cs : Shape) (h : cs ≠ []) :
    ringClosed (closeRing cs) = true := by
  cases cs with
  | nil => exact absurd rfl h
  | cons c t =>
    simp only [closeRing]
    split
    next heq => simp only [ringClosed]; exact heq
    next =>
      rw [List.cons_append]
      simp only [ringClosed]
      rw [lastVertex_concat]
      exact vertexEq_refl c

theorem mem_closeRing (cs : Shape) (v : Vertex) (h : v ∈ closeRing cs) : v ∈ cs := by
  cases cs with
  | nil => simp [closeRing] at h
  | cons c t =>
    simp only [closeRing] at h
    split at h
    · exact h
    · rcases List.mem_append.mp h with h1 | h1
      · exact h1
      · rw [List.mem_singleton] at h1; subst h1; exact List.mem_cons_self _ _

theorem parseCoordPart_range (part0 : List Char) (v : Vertex)
    (h : parseCoordPart part0 = some v) :
    ((pf (-180)).leb v.1 && v.1.leb (pf 180) &&
      (pf (-90)).leb v.2 && v.2.leb (pf 90)) = true := by
  simp only [parseCoordPart] at h
  split at h
  · simp at h
  · split at h
    · simp at h
    · split at h
      · simp at h
      · split at h
        next lon lat heq1 heq2 =>
          split at h
          · injection h with h2
            subst h2
            show ((pf (-180)).leb lon && lon.leb (pf 180) &&
              (pf (-90)).leb lat && lat.leb (pf 90)) = true
            assumption
          · simp at h
        next => simp at h
        next => simp at h

theorem parse_coordinates_range (t : List Char) (v : Vertex)
    (h : v ∈ parse_coordinates t) :
    ((pf (-180)).leb v.1 && v.1.leb (pf 180) &&
      (pf (-90)).leb v.2 && v.2.leb (pf 90)) = true := by
  simp only [parse_coordinates] at h
  split at h
  · simp at h
  · obtain ⟨line, hline, hv⟩ := List.mem_flatMap.mp h
    simp only [parseLine] at hv
    split at hv
    · simp at hv
    · obtain ⟨part, hpart, hsome⟩ := List.mem_filterMap.mp hv
      exact parseCoordPart_range part v hsome

theorem foldl_parseKmlStep_forall (P : Shape → Prop)
    (hstep : ∀ p : Placemark, 3 ≤ (pmCoords p).length → P (closeRing (pmCoords p)))
    (doc : List Placemark) :
    ∀ acc : List Shape × List Record, (∀ r ∈ acc.1, P r) →
      ∀ r ∈ (doc.foldl parseKmlStep acc).1, P r := by
  induction doc with
  | nil => intro acc hacc r hr; exact hacc r hr
  | cons p rest ih =>
    intro acc hacc r hr
    rw [List.foldl_cons] at hr
    refine ih (parseKmlStep acc p) ?_ r hr
    intro r' hr'
    simp only [parseKmlStep] at hr'
    split at hr'
    next hc =>
      have hr2 : r' ∈ acc.1 ++ [closeRing (pmCoords p)] := hr'
      rcases List.mem_append.mp hr2 with h1 | h1
      · exact hacc r' h1
      · rw [List.mem_singleton] at h1
        subst h1
        exact hstep p hc
    next => exact hacc r' hr'

theorem foldl_add_map_sum (f : Shape → Nat) (l : List Shape) (init : Nat) :
    l.foldl (fun acc s => acc + f s) init = init + (l.map f).sum := by
  induction l generalizing init with
  | nil => simp
  | cons s t ih => simp [List.foldl_cons, ih, List.sum_cons]; omega

theorem isCont_le (b : Nat) (h : isCont b = true) : b ≤ 191 := by
  simp [isCont] at h
  omega

theorem utf8SecondOk_le (b b2 : Nat) (h : utf8SecondOk b b2 = true) : b2 ≤ 191 := by
  unfold utf8SecondOk at h
  split_ifs at h <;> simp [isCont] at h <;> omega

theorem utf8Step_mem255 (l : List Nat) (h : 255 ∈ l) :
    utf8Step l = none ∨ ∃ c rest2, utf8Step l = some (c, rest2) ∧ 255 ∈ rest2 := by
  cases l with
  | nil => simp at h
  | cons b rest =>
    rw [List.mem_cons] at h
    simp only [utf8Step]
    split
    next h1 =>
      refine Or.inr ⟨Char.ofNat b, rest, rfl, ?_⟩
      cases h with
      | inl hb => exact absurd h1 (by omega)
      | inr hmr => exact hmr
    next h1 =>
      split
      next h2 =>
        simp at h2
        have hmr : 255 ∈ rest := by
          cases h with
          | inl hb => omega
          | inr hmr2 => exact hmr2
        cases rest with
        | nil => simp at hmr
        | cons b2 rest2 =>
          dsimp only
          split
          next hc2 =>
            refine Or.inr ⟨_, rest2, rfl, ?_⟩
            rcases List.mem_cons.mp hmr with hb2 | hq
            · have := isCont_le b2 hc2; omega
            · exact hq
          next => exact Or.inl rfl
      next h2 =>
        split
        next h3 =>
          simp at h3
          have hmr : 255 ∈ rest := by
            cases h with
            | inl hb => omega
            | inr hmr2 => exact hmr2
          cases rest with
          | nil => exact Or.inl rfl
          | cons b2 restq =>
            cases restq with
            | nil => exact Or.inl rfl
            | cons b3 rest2 =>
              dsimp only
              split
              next hc3 =>
                rw [Bool.and_eq_true] at hc3
                refine Or.inr ⟨_, rest2, rfl, ?_⟩
                rcases List.mem_cons.mp hmr with hb2 | hq
                · have := utf8SecondOk_le b b2 hc3.1; omega
                · rcases List.mem_cons.mp hq with hb3 | hq2
                  · have := isCont_le b3 hc3.2; omega
                  · exact hq2
              next => exact Or.inl rfl
        next h3 =>
          split
          next h4 =>
            simp at h4
            have hmr : 255 ∈ rest := by
              cases h with
              | inl hb => omega
              | inr hmr2 => exact hmr2
            cases rest with
            | nil => exact Or.inl rfl
            | cons b2 restq =>
              cases restq with
              | nil => exact Or.inl rfl
              | cons b3 restq2 =>
                cases restq2 with
                | nil => exact Or.inl rfl
                | cons b4 rest2 =>
                  dsimp only
                  split
                  next hc4 =>
                    rw [Bool.and_eq_true, Bool.and_eq_true] at hc4
                    refine Or.inr ⟨_, rest2, rfl, ?_⟩
                    rcases List.mem_cons.mp hmr with hb2 | hq
                    · have := utf8SecondOk_le b b2 hc4.1.1; omega
                    · rcases List.mem_cons.mp hq with hb3 | hq2
                      · have := isCont_le b3 hc4.1.2; omega
                      · rcases List.mem_cons.mp hq2 with hb4 | hq3
                        · have := isCont_le b4 hc4.2; omega
                        · exact hq3
                  next => exact Or.inl rfl
          next h4 => exact Or.inl rfl

theorem utf8DecodeLoop_none (fuel : Nat) :
    ∀ l : List Nat, 255 ∈ l → utf8DecodeLoop fuel l = none := by
  induction fuel with
  | zero =>
    intro l hm
    cases l with
    | nil => simp at hm
    | cons b rest => rfl
  | succ n ih =>
    intro l hm
    cases l with
    | nil => simp at hm
    | cons b rest =>
      rcases utf8Step_mem255 _ hm with hnone | ⟨c, rest2, hstep, hmem⟩
      · simp only [utf8DecodeLoop]
        rw [hnone]
      · simp only [utf8DecodeLoop]
        rw [hstep]
        dsimp only
        rw [ih rest2 hmem]
        rfl

theorem utf8Decode_none_of_mem255 (l : List Nat) (h : 255 ∈ l) :
    utf8Decode l = none :=
  utf8DecodeLoop_none l.length l h

/-- Claim C1, evaluated at a two-shape dataset: the index entries' content
lengths (54, 54 words) do match the content lengths declared in the record
headers of `write_shp`, but the offset written for record 2 is 162 words,
while in the emitted `.shp` stream record 2 actually begins after a
220-byte = 110-word prefix (the offset accumulator of `write_shx` advances
by `4 + content_length` where 4 counts words and `content_length` counts
bytes). -/
theorem shx_offset_diverges_from_record_start :
    (shxIndexEntries [sampleRingA, sampleRingB]).map Prod.fst = [50, 162] ∧
    (shxIndexEntries [sampleRingA, sampleRingB]).map Prod.snd = [54, 54] ∧
    (shpRecordFields 0 sampleRingA).getD 1 (.u32le 0) = .u32be 54 ∧
    (shpRecordFields 1 sampleRingB).getD 1 (.u32le 0) = .u32be 54 ∧
    write_shp [sampleRingA, sampleRingB] =
      (shpHeaderFields [sampleRingA, sampleRingB] ++ shpRecordFields 0 sampleRingA) ++
        shpRecordFields 1 sampleRingB ∧
    fieldsSize (shpHeaderFields [sampleRingA, sampleRingB] ++ shpRecordFields 0 sampleRingA) =
      2 * 110 ∧
    (162 : Nat) ≠ 110 := by
  refine ⟨by decide, by decide, by decide, by decide, by decide, by decide, by decide⟩

/-- Claim C2, counterexample: for the one-shape dataset whose ring has 4
points, `write_shp` writes file length 162, but the claimed formula
`50 + Σ (4 + 11 + 2 × pointCount)` gives 73. -/
theorem shp_file_length_formula_counterexample :
    sampleRingA.length = 4 ∧
    shp_file_length [sampleRingA] = 162 ∧
    50 + (4 + 11 + 2 * 4) = 73 ∧
    (162 : Nat) ≠ 73 := by
  refine ⟨by decide, by decide, by decide, by decide⟩

/-- Claim C2 as amended: for every non-empty dataset the file-length field
written by `write_shp` equals `50 + Σ (4 + 44 + 16 × pointCount)` — the
addend mixes the 4-word record-header size with the
`44 + 16 × pointCount`-byte content size. -/
theorem shp_file_length_eq_sum (shapes : List Shape) (_hne : shapes ≠ []) :
    shp_file_length shapes =
      50 + (shapes.map (fun s => 4 + 44 + s.length * 16)).sum := by
  unfold shp_file_length
  exact foldl_add_map_sum _ shapes 50

/-- Witness for `shp_file_length_eq_sum` at the one-shape dataset. -/
theorem shp_file_length_eq_sum_witness :
    [sampleRingA] ≠ ([] : List Shape) ∧
      shp_file_length [sampleRingA] =
        50 + (([sampleRingA] : List Shape).map (fun s => 4 + 44 + s.length * 16)).sum :=
  ⟨by decide, shp_file_length_eq_sum [sampleRingA] (by decide)⟩

/-- Claim C3, counterexample: a placemark whose coordinate text is an
already-closed 3-vertex ring contributes a shape of length 3, so rings of
length `< 4` are appended and no post-closure discard happens. -/
theorem ring_min_length_counterexample :
    (parse_kml [closedTrianglePm]).1 = [closedTriangleRing] ∧
    closedTriangleRing.length = 3 ∧
    ¬ 4 ≤ closedTriangleRing.length := by
  refine ⟨by decide, by decide, by decide⟩

/-- Claim C3 as amended: every ring appended to the dataset by `parse_kml`
has length at least 3 and its first vertex equals its last vertex (Python
float equality); rings that arrive already closed with exactly 3 vertices
are kept as-is. -/
theorem parse_kml_rings_closed (doc : List Placemark) (ring : Shape)
    (h : ring ∈ (parse_kml doc).1) :
    3 ≤ ring.length ∧ ringClosed ring = true := by
  refine foldl_parseKmlStep_forall
    (fun r => 3 ≤ r.length ∧ ringClosed r = true) ?_ doc ([], []) ?_ ring h
  · intro p hc
    refine ⟨le_trans hc (closeRing_length _), closeRing_closed _ ?_⟩
    intro he
    rw [he] at hc
    simp at hc
  · intro r hr
    simp at hr

/-- Witness for `parse_kml_rings_closed` at the closed-triangle document. -/
theorem parse_kml_rings_closed_witness :
    closedTriangleRing ∈ (parse_kml [closedTrianglePm]).1 ∧
      (3 ≤ closedTriangleRing.length ∧ ringClosed closedTriangleRing = true) :=
  ⟨by decide, parse_kml_rings_closed [closedTrianglePm] closedTriangleRing (by decide)⟩

/-- Claim C4, evaluated: the round trip through the emitted geometry and
index streams recovers the single-shape dataset, but on a two-shape
dataset the index offset for record 2 points into the middle of that
record's coordinate data, decoding fails, and the rings are not
recovered. -/
theorem roundtrip_fails_on_two_shapes :
    roundTripShp [sampleRingC] = some [sampleRingC] ∧
    roundTripShp [sampleRingC, sampleRingD] = none ∧
    (none : Option (List Shape)) ≠ some [sampleRingC, sampleRingD] := by
  refine ⟨by decide, by decide, by decide⟩

/-- Claim C5, counterexample: in a document with two polygon placemarks
where the second is unnamed, the second record's name is `Polygon_3`, not
`Polygon_2` (the default-name ordinal is computed after the shape was
already appended). -/
theorem default_name_ordinal_counterexample :
    (parse_kml [namedPm, unnamedPm]).2.map Record.name =
      ["First".data, "Polygon_3".data] ∧
    "Polygon_3".data ≠ "Polygon_2".data := by
  refine ⟨by decide, by decide⟩

/-- Claim C5 as amended: a nameless placemark that yields the `k`-th shape
(`k` 1-based, here `k = acc.1.length + 1`) is recorded under the default
name `Polygon_{k + 1}`. -/
theorem default_name_is_ordinal_plus_one (acc : List Shape × List Record)
    (p : Placemark) (hname : p.nameText = none)
    (hlen : 3 ≤ (pmCoords p).length) :
    (parseKmlStep acc p).2.getLast? =
      some { name := defaultName (acc.1.length + 2),
             description := pmDescription p } := by
  have hnm : pmName p = [] := by simp [pmName, hname]
  simp only [parseKmlStep]
  rw [if_pos hlen, hnm]
  rw [List.getLast?_concat]
  simp [List.length_append]

/-- Witness for `default_name_is_ordinal_plus_one`: starting from an empty
dataset, the unnamed square placemark is recorded as `Polygon_2`. -/
theorem default_name_is_ordinal_plus_one_witness :
    (parseKmlStep (([], []) : List Shape × List Record) unnamedPm).2.getLast? =
      some { name := defaultName 2, description := pmDescription unnamedPm } :=
  default_name_is_ordinal_plus_one ([], []) unnamedPm rfl (by decide)

/-- Claim C6, evaluated at a record whose name is the one-character string
`é`: the emitted row is 152 bytes (the name field encodes to 51 bytes,
because truncation and padding are applied to characters before UTF-8
encoding), although the header written by `write_dbf` declares the
151-byte record length at bytes 10-11. -/
theorem dbf_row_length_exceeds_declared :
    (dbfRow nonAsciiRecord).length = 152 ∧
    ((write_dbf [nonAsciiRecord]).drop 10).take 2 = [151, 0] ∧
    (152 : Nat) ≠ 151 := by
  refine ⟨by decide, by decide, by decide⟩

/-- Claim C7: when extraction yields zero valid polygons, `convert` raises
the fatal error of line 284, which precedes the directory creation and all
four write calls, so no output file is produced (the `.ok` branch carrying
the outputs is not taken). -/
theorem convert_errors_on_empty_dataset (doc : List Placemark)
    (h : (parse_kml doc).1 = []) :
    convertDoc doc = .error noPolygonsMsg := by
  simp only [convertDoc, h]
  rfl

/-- Witness for `convert_errors_on_empty_dataset` at the empty document. -/
theorem convert_errors_on_empty_dataset_witness :
    (parse_kml ([] : List Placemark)).1 = [] ∧
      convertDoc [] = .error noPolygonsMsg :=
  ⟨rfl, convert_errors_on_empty_dataset [] rfl⟩

/-- Claim C8, counterexample: the byte `0xFF` is Latin-1-decodable (to
`ÿ`), yet the loader raises a decoding error on it — there is no Latin-1
retry in the code. -/
theorem latin1_decodable_input_raises :
    latin1Decode [255] = [Char.ofNat 255] ∧
      readInputText [255] = .error decodeErrorMsg := by
  refine ⟨by decide, by rfl⟩

/-- Claim C8 as amended: the loader decodes with UTF-8 only; any byte
sequence containing a byte that is invalid in UTF-8 (here `0xFF`) raises a
decoding error even though Latin-1 decoding succeeds on every byte
sequence. -/
theorem no_latin1_fallback (bytes : List Nat) (h : 255 ∈ bytes) :
    readInputText bytes = .error decodeErrorMsg ∧
      (latin1Decode bytes).length = bytes.length := by
  constructor
  · unfold readInputText
    rw [utf8Decode_none_of_mem255 bytes h]
  · simp [latin1Decode]

/-- Witness for `no_latin1_fallback` at the byte sequence `[0xFF]`. -/
theorem no_latin1_fallback_witness :
    readInputText [255] = .error decodeErrorMsg ∧
      (latin1Decode [255]).length = [(255 : Nat)].length :=
  no_latin1_fallback [255] (by decide)

/-- Claim C9: every vertex of every shape of the dataset produced by
`parse_kml` satisfies `-180 <= lon <= 180` and `-90 <= lat <= 90` — only
tokens passing the range test of line 61 are ever appended, and closing a
ring only duplicates an existing vertex.  (Dropping of malformed or
out-of-range tokens is non-fatal by construction: `parse_coordinates` is
total.) -/
theorem dataset_vertices_in_range (doc : List Placemark) (ring : Shape)
    (v : Vertex) (hr : ring ∈ (parse_kml doc).1) (hv : v ∈ ring) :
    ((pf (-180)).leb v.1 && v.1.leb (pf 180) &&
      (pf (-90)).leb v.2 && v.2.leb (pf 90)) = true := by
  have hstep : ∀ p : Placemark, 3 ≤ (pmCoords p).length →
      ∀ w ∈ closeRing (pmCoords p),
        ((pf (-180)).leb w.1 && w.1.leb (pf 180) &&
          (pf (-90)).leb w.2 && w.2.leb (pf 90)) = true := by
    intro p hc w hw
    have hw2 := mem_closeRing _ _ hw
    unfold pmCoords at hw2
    cases hcoord : p.coordText with
    | none => rw [hcoord] at hw2; simp at hw2
    | some t =>
      rw [hcoord] at hw2
      simp at hw2
      exact parse_coordinates_range t w hw2
  exact foldl_parseKmlStep_forall
    (fun r => ∀ w ∈ r,
      ((pf (-180)).leb w.1 && w.1.leb (pf 180) &&
        (pf (-90)).leb w.2 && w.2.leb (pf 90)) = true)
    hstep doc ([], []) (by intro r hr2; simp at hr2) ring hr v hv

/-- Witness for `dataset_vertices_in_range` at the closed-triangle
document and its vertex `(1, 1)`. -/
theorem dataset_vertices_in_range_witness :
    closedTriangleRing ∈ (parse_kml [closedTrianglePm]).1 ∧
      (pf 1, pf 1) ∈ closedTriangleRing ∧
      ((pf (-180)).leb (pf 1, pf 1).1 && (pf 1, pf 1).1.leb (pf 180) &&
        (pf (-90)).leb (pf 1, pf 1).2 && (pf 1, pf 1).2.leb (pf 90)) = true :=
  ⟨by decide, by decide,
    dataset_vertices_in_range [closedTrianglePm] closedTriangleRing (pf 1, pf 1)
      (by decide) (by decide)⟩

/-- Claim C10: the 3-byte date stamp written by `write_dbf` is the fixed
constant `(24, 1, 1)` for every record list — the writer takes no clock
input at all, and in this pure embedding every emitted stream is a
function of the extracted dataset alone, so two conversions of the same
input document produce identical bytes. -/
theorem dbf_date_stamp_constant (records : List Record) :
    ((write_dbf records).drop 1).take 3 = [24, 1, 1] := rfl

end KmlToShp
